import Mathlib

/-!
# Verification of the pdftoc ToC-inference engine

Shallow embedding of the `pdftoc` package (PDF table-of-contents inference
and bookmark injection) and proofs about it.

Modelling conventions:
* A PDF document is modelled as the list of its per-page extracted text
  strings (the only document operations the verified code uses are
  `len(doc)` and `doc[i].get_text()`).
* Python `int` is modelled by `Int`, Python lists by `List`.
* Python string lowering (`str.lower`) is modelled by `String.toLower`;
  the inputs of interest are ASCII, where the two agree.
* Python's stable `sorted`/`list.sort` with a key function is modelled by a
  stable insertion sort with the corresponding boolean `le` relation
  (extensionally equal to any stable sort for a total preorder key).
* Regular-expression frontends (`re.findall` of letter runs) are embedded
  directly where the character class is simple; full regex grammars over
  PDF text are abstracted as explicit candidate streams where noted.
-/

namespace Pdftoc

/-- Structure `TocEntry` from `src/pdftoc/models.py`: a table-of-contents entry with a
hierarchy level, a title and a 1-based logical page number. -/
structure TocEntry where
  level : Int
  title : String
  page : Int
deriving DecidableEq, Repr

/-! ## Level normalization (`_normalize_levels`, bookmarks.py 132-158)

`_normalize_levels` first computes the minimum level, shifts every level so
that minimum becomes 1, then walks the list clamping any level that jumps
more than one above the previous (already clamped) level. -/

/-- Python `min(e.level for e in toc_entries)` over the nonempty list
`e0 :: rest`, as a left fold. -/
def minLevel (e0 : TocEntry) (rest : List TocEntry) : Int :=
  rest.foldl (fun m e => min m e.level) e0.level

/-- The second pass of `_normalize_levels`: walk the entries carrying
`prev_level` (initially 0) and clamp any `new_level > prev_level + 1`
down to `prev_level + 1`. -/
def clampSkips : Int → List TocEntry → List TocEntry
  | _, [] => []
  | prev, e :: rest =>
    let newLevel := if prev + 1 < e.level then prev + 1 else e.level
    ⟨newLevel, e.title, e.page⟩ :: clampSkips newLevel rest

/-- Function `_normalize_levels` from `src/pdftoc/bookmarks.py` (duplicated in
`core.py`): shift all levels so the minimum is 1, then forbid level skips. -/
def normalize_levels : List TocEntry → List TocEntry
  | [] => []
  | e0 :: rest =>
    let m := minLevel e0 rest
    clampSkips 0 ((e0 :: rest).map fun e => ⟨e.level - m + 1, e.title, e.page⟩)

/-! ### Helper lemmas about the normalizer -/

theorem minLevel_le_head (e0 : TocEntry) (rest : List TocEntry) :
    minLevel e0 rest ≤ e0.level := by
  unfold minLevel
  induction rest generalizing e0 with
  | nil => simp
  | cons b l ih =>
    simp only [List.foldl_cons]
    exact le_trans (le_of_le_of_eq (ih ⟨min e0.level b.level, e0.title, e0.page⟩) rfl)
      (min_le_left _ _)

theorem foldl_min_le_acc (l : List TocEntry) (acc : Int) :
    l.foldl (fun m x => min m x.level) acc ≤ acc := by
  induction l generalizing acc with
  | nil => simp
  | cons b t ih =>
    simp only [List.foldl_cons]
    exact le_trans (ih (min acc b.level)) (min_le_left _ _)

theorem foldl_min_le_mem (l : List TocEntry) (acc : Int) :
    ∀ e ∈ l, l.foldl (fun m x => min m x.level) acc ≤ e.level := by
  induction l generalizing acc with
  | nil => intro e he; cases he
  | cons b t ih =>
    intro e he
    rcases List.mem_cons.mp he with rfl | he
    · simp only [List.foldl_cons]
      exact le_trans (foldl_min_le_acc t (min acc e.level)) (min_le_right _ _)
    · exact ih (min acc b.level) e he

theorem minLevel_le (e0 : TocEntry) (rest : List TocEntry) :
    ∀ e ∈ e0 :: rest, minLevel e0 rest ≤ e.level := by
  intro e he
  rcases List.mem_cons.mp he with rfl | he
  · exact minLevel_le_head _ _
  · exact foldl_min_le_mem rest e0.level e he

/-- Lemma: `clampSkips` only rewrites the `level` field: titles and pages pass
through unchanged, in order. -/
theorem clampSkips_map_titlePage (prev : Int) (l : List TocEntry) :
    (clampSkips prev l).map (fun e => (e.title, e.page)) =
      l.map (fun e => (e.title, e.page)) := by
  induction l generalizing prev with
  | nil => rfl
  | cons e rest ih => simp [clampSkips, ih]

/-- The normalizer only rewrites the `level` field. -/
theorem normalize_map_titlePage (l : List TocEntry) :
    (normalize_levels l).map (fun e => (e.title, e.page)) =
      l.map (fun e => (e.title, e.page)) := by
  cases l with
  | nil => rfl
  | cons e0 rest =>
    simp only [normalize_levels, clampSkips_map_titlePage, List.map_map]
    rfl

theorem normalize_length (l : List TocEntry) :
    (normalize_levels l).length = l.length := by
  have h := congrArg List.length (normalize_map_titlePage l)
  simpa using h

theorem clampSkips_all_ge_one (prev : Int) (l : List TocEntry)
    (hprev : 0 ≤ prev) (hl : ∀ e ∈ l, 1 ≤ e.level) :
    ∀ e ∈ clampSkips prev l, 1 ≤ e.level := by
  induction l generalizing prev with
  | nil => intro e he; cases he
  | cons b t ih =>
    intro e he
    have hb := hl b (List.mem_cons_self _ _)
    have ht : ∀ x ∈ t, (1 : Int) ≤ x.level := fun x hx => hl x (List.mem_cons_of_mem _ hx)
    simp only [clampSkips] at he
    rcases List.mem_cons.mp he with rfl | he
    · by_cases h : prev + 1 < b.level <;> simp only [h, if_true, if_false, ite_true, ite_false]
      · omega
      · exact hb
    · by_cases h : prev + 1 < b.level <;> simp only [h, if_true, if_false, ite_true, ite_false] at he
      · exact ih (prev + 1) (by omega) ht e he
      · exact ih b.level (by omega) ht e he

theorem clampSkips_head?_le (prev : Int) (l : List TocEntry) :
    ∀ y ∈ (clampSkips prev l).head?, y.level ≤ prev + 1 := by
  cases l with
  | nil => intro y hy; simp [clampSkips] at hy
  | cons b t =>
    intro y hy
    simp only [clampSkips, List.head?_cons, Option.mem_def, Option.some.injEq] at hy
    subst hy
    show (if prev + 1 < b.level then prev + 1 else b.level) ≤ prev + 1
    split <;> omega

/-- Adjacent levels in the output of `clampSkips` rise by at most one. -/
theorem clampSkips_chain (prev : Int) (l : List TocEntry) :
    (clampSkips prev l).Chain' (fun a b => b.level ≤ a.level + 1) := by
  induction l generalizing prev with
  | nil => exact List.chain'_nil
  | cons b t ih =>
    rw [show clampSkips prev (b :: t) =
        (⟨if prev + 1 < b.level then prev + 1 else b.level, b.title, b.page⟩ : TocEntry) ::
          clampSkips (if prev + 1 < b.level then prev + 1 else b.level) t from rfl]
    rw [List.chain'_cons']
    exact ⟨clampSkips_head?_le _ t, ih _⟩

/-! ### Claims C5 and C10 -/

/-- C5: for every non-empty input entry list, the list returned by the level
normalizer (`_normalize_levels`) has minimum level exactly 1 (some entry has
level 1 and every entry has level at least 1), and for every adjacent pair of
output entries in order, `level[i+1] <= level[i] + 1`. -/
theorem C5_normalizer_invariant (e0 : TocEntry) (rest : List TocEntry) :
    (∃ e ∈ normalize_levels (e0 :: rest), e.level = 1) ∧
    (∀ e ∈ normalize_levels (e0 :: rest), 1 ≤ e.level) ∧
    ∀ i : Nat, ∀ h : i + 1 < (normalize_levels (e0 :: rest)).length,
      ((normalize_levels (e0 :: rest)).get ⟨i + 1, h⟩).level ≤
        ((normalize_levels (e0 :: rest)).get ⟨i, Nat.lt_of_succ_lt h⟩).level + 1 := by
  have hm := minLevel_le e0 rest
  have hshift : ∀ e ∈ (e0 :: rest).map
      (fun e => TocEntry.mk (e.level - minLevel e0 rest + 1) e.title e.page),
      1 ≤ e.level := by
    intro e he
    rcases List.mem_map.mp he with ⟨x, hx, rfl⟩
    have := hm x hx
    simp only
    omega
  have hrepr : normalize_levels (e0 :: rest) =
      clampSkips 0 ((e0 :: rest).map
        fun e => TocEntry.mk (e.level - minLevel e0 rest + 1) e.title e.page) := rfl
  refine ⟨?_, ?_, ?_⟩
  · rw [hrepr]
    simp only [List.map_cons, clampSkips]
    refine ⟨_, List.mem_cons_self _ _, ?_⟩
    have h1 : (1 : Int) ≤ e0.level - minLevel e0 rest + 1 := by
      have := hm e0 (List.mem_cons_self _ _)
      omega
    show (if 0 + 1 < e0.level - minLevel e0 rest + 1
        then 0 + 1 else e0.level - minLevel e0 rest + 1) = 1
    split <;> omega
  · rw [hrepr]
    exact clampSkips_all_ge_one 0 _ le_rfl hshift
  · intro i h
    have h2 : i < (clampSkips 0 ((e0 :: rest).map
        fun e => TocEntry.mk (e.level - minLevel e0 rest + 1) e.title e.page)).length - 1 := by
      rw [← hrepr]
      omega
    exact List.chain'_iff_get.mp (clampSkips_chain 0 _) i h2

/-- Witness for C5 at a concrete input: `[{3, "Intro", 2}, {5, "Sub", 3}]`
normalizes to levels `[1, 2]`. -/
theorem C5_normalizer_invariant_witness :
    (∃ e ∈ normalize_levels [⟨3, "Intro", 2⟩, ⟨5, "Sub", 3⟩], e.level = 1) ∧
    ((normalize_levels [⟨3, "Intro", 2⟩, ⟨5, "Sub", 3⟩]).get ⟨1, by decide⟩).level ≤
      ((normalize_levels [⟨3, "Intro", 2⟩, ⟨5, "Sub", 3⟩]).get ⟨0, by decide⟩).level + 1 :=
  ⟨(C5_normalizer_invariant ⟨3, "Intro", 2⟩ [⟨5, "Sub", 3⟩]).1,
   (C5_normalizer_invariant ⟨3, "Intro", 2⟩ [⟨5, "Sub", 3⟩]).2.2 0 (by decide)⟩

/-- C10: the level normalizer returns a list of the same length and order in
which every entry's title and page equal those of the corresponding input
entry — only the `level` field is ever modified. -/
theorem C10_normalizer_frame (l : List TocEntry) :
    (normalize_levels l).length = l.length ∧
    (normalize_levels l).map (fun e => (e.title, e.page)) =
      l.map (fun e => (e.title, e.page)) :=
  ⟨normalize_length l, normalize_map_titlePage l⟩

/-! ## String helpers used by the verifier

`verify_bookmarks` uses `str.lower()`, the substring operator `in`, and
`re.findall(r"[A-Za-z]{4,}", title)`. -/

/-- The regex character class `[A-Za-z]`. -/
def isAsciiLetter (c : Char) : Bool :=
  ('A' ≤ c && c ≤ 'Z') || ('a' ≤ c && c ≤ 'z')

/-- Maximal runs of ASCII letters in a character list (`acc` holds the
current run reversed): the matches of `re.findall(r"[A-Za-z]+", ·)`. -/
def letterRunsAux (acc : List Char) : List Char → List (List Char)
  | [] => if acc.isEmpty then [] else [acc.reverse]
  | c :: cs =>
    if isAsciiLetter c then letterRunsAux (c :: acc) cs
    else if acc.isEmpty then letterRunsAux [] cs
    else acc.reverse :: letterRunsAux [] cs

def letterRuns (s : String) : List (List Char) := letterRunsAux [] s.toList

/-- Python `str.lower()` (the inputs of interest are ASCII). -/
def lowerStr (s : String) : String := String.mk (s.toList.map Char.toLower)

def listContains (needle : List Char) : List Char → Bool
  | [] => needle.isEmpty
  | c :: rest => needle.isPrefixOf (c :: rest) || listContains needle rest

/-- Python `needle in haystack` substring test. -/
def strContains (haystack needle : String) : Bool :=
  listContains needle.toList haystack.toList

/-! ## Outline verifier (`verify_bookmarks`, bookmarks.py 22-90) -/

/-- Keyword extraction of the content check (bookmarks.py line 66):
`[w.lower() for w in re.findall(r"[A-Za-z]{4,}", entry.title)]`. -/
def titleKeywords (title : String) : List String :=
  ((letterRuns title).filter (fun r => 4 ≤ r.length)).map
    (fun r => lowerStr (String.mk r))

/-- Counter `matches = sum(1 for kw in keywords if kw in text)` (bookmarks.py 72). -/
def keywordMatches (text : String) (keywords : List String) : Nat :=
  keywords.countP (fun kw => strContains text kw)

/-- The per-entry content test of `verify_bookmarks` (bookmarks.py 62-74),
given the already-lowercased text of the entry's page: an entry with no
keywords is skipped (never counted); otherwise it counts as a content
mismatch exactly when `matches < len(keywords) // 2 and matches < 1`. -/
def contentMismatch (text : String) (title : String) : Bool :=
  let keywords := titleKeywords title
  if keywords.isEmpty then false
  else
    let found := keywordMatches text keywords
    decide (found < keywords.length / 2) && decide (found < 1)

/-- The issue strings appended by `verify_bookmarks`, modelled as tagged
values carrying the data interpolated into each message. -/
inductive Issue where
  | lacksStructure (entries : Nat) (page : Int)
  | tooFewBookmarks (entries : Nat) (pages : Nat)
  | invalidPage (title : String) (page : Int)
  | contentMismatches (bad : Nat) (sampleSize : Nat)
deriving DecidableEq, Repr

def isLacksStructure : Issue → Bool
  | .lacksStructure _ _ => true
  | _ => false

/-- Stable insertion of `a` before the first element `b` with `le a b`. -/
def insertStable (le : α → α → Bool) (a : α) : List α → List α
  | [] => [a]
  | b :: l => if le a b then a :: b :: l else b :: insertStable le a l

/-- Stable insertion sort; extensionally equal to Python's stable `sorted`
for a total preorder `le`. -/
def stableSort (le : α → α → Bool) : List α → List α
  | [] => []
  | a :: l => insertStable le a (stableSort le l)

/-- The sample ordering of the content check (bookmarks.py line 52):
`sorted(bookmarks, key=lambda b: (b.page == 1, b.page))`, i.e. the
lexicographic `≤` on the key pair with `False < True`. -/
def sampleLe (a b : TocEntry) : Bool :=
  (!(a.page == 1) && (b.page == 1)) ||
    (((a.page == 1) == (b.page == 1)) && decide (a.page ≤ b.page))

/-- Check 1 of `verify_bookmarks` (bookmarks.py 35-41): at most 3 entries,
all at level 1, all pointing to one page
(`len(set(b.page for b in bookmarks)) == 1`). -/
def structureIssue (bs : List TocEntry) (firstPage : Int) : List Issue :=
  if ((bs.map (·.page)).dedup.length == 1) && bs.all (fun b => b.level == 1) &&
      decide (bs.length ≤ 3) then
    [.lacksStructure bs.length firstPage]
  else []

/-- Check 2 of `verify_bookmarks` (bookmarks.py 43-47):
`len(bookmarks) < 3 and len(doc) > 10`. -/
def densityIssue (pageCount : Nat) (bs : List TocEntry) : List Issue :=
  if decide (bs.length < 3) && decide (10 < pageCount) then
    [.tooFewBookmarks bs.length pageCount]
  else []

/-- One iteration of the content-check loop (bookmarks.py 55-74): an
out-of-range page appends an issue; otherwise the entry's page text is
lowercased and a content mismatch bumps the `content_issues` counter. -/
def contentStep (doc : List String) (acc : List Issue × Nat) (entry : TocEntry) :
    List Issue × Nat :=
  if entry.page < 1 ∨ (doc.length : Int) < entry.page then
    (acc.1 ++ [.invalidPage entry.title entry.page], acc.2)
  else
    let text := lowerStr (doc.getD (entry.page - 1).toNat "")
    if contentMismatch text entry.title then (acc.1, acc.2 + 1) else acc

/-- Check 3 of `verify_bookmarks` (bookmarks.py 49-74): fold the content
check over the sample of (up to 5) bookmarks, preferring ones not on
page 1. -/
def contentScan (doc : List String) (bs : List TocEntry) : List Issue × Nat :=
  ((stableSort sampleLe bs).take (min 5 bs.length)).foldl (contentStep doc) ([], 0)

/-- The issues of check 3, including the summary issue appended when
`content_issues > sample_size // 2` (bookmarks.py 76-79). -/
def contentIssues (doc : List String) (bs : List TocEntry) : List Issue :=
  (contentScan doc bs).1 ++
    (if decide (min 5 bs.length / 2 < (contentScan doc bs).2) then
      [.contentMismatches (contentScan doc bs).2 (min 5 bs.length)]
    else [])

/-- Function `verify_bookmarks` from `src/pdftoc/bookmarks.py` (22-90). The document
is its list of page texts. Returns `(is_valid, issues)`; an empty outline
returns `(True, [])` immediately (line 32-33), and otherwise
`is_valid = (len(issues) == 0)`. -/
def verify_bookmarks (doc : List String) (bookmarks : List TocEntry) :
    Bool × List Issue :=
  match bookmarks with
  | [] => (true, [])
  | b0 :: rest =>
    let issues := structureIssue (b0 :: rest) b0.page ++
      densityIssue doc.length (b0 :: rest) ++ contentIssues doc (b0 :: rest)
    (issues.isEmpty, issues)

/-! ### Claims C2, C3, C4 -/

theorem verify_fst_eq_isEmpty (doc : List String) (b0 : TocEntry) (rest : List TocEntry) :
    (verify_bookmarks doc (b0 :: rest)).1 = (verify_bookmarks doc (b0 :: rest)).2.isEmpty :=
  rfl

theorem verify_invalid_of_mem (doc : List String) (b0 : TocEntry) (rest : List TocEntry)
    (i : Issue) (hi : i ∈ (verify_bookmarks doc (b0 :: rest)).2) :
    (verify_bookmarks doc (b0 :: rest)).1 = false := by
  rw [verify_fst_eq_isEmpty]
  cases hl : (verify_bookmarks doc (b0 :: rest)).2 with
  | nil => rw [hl] at hi; cases hi
  | cons a t => rfl

theorem dedup_eq_singleton_of_all_eq (a : Int) :
    ∀ l : List Int, (∀ x ∈ l, x = a) → (a :: l).dedup = [a] := by
  intro l
  induction l with
  | nil => intro _; simp
  | cons b t ih =>
    intro h
    have hb : b = a := h b (List.mem_cons_self _ _)
    subst hb
    rw [List.dedup_cons_of_mem (List.mem_cons_self _ _)]
    exact ih fun x hx => h x (List.mem_cons_of_mem _ hx)

/-- C4 counterexample: the claim includes the empty outline, but
`verify_bookmarks` returns early with `(True, [])` for an empty outline
(bookmarks.py 32-33), even for a document with more than 10 pages. -/
theorem C4_counterexample_empty_outline :
    verify_bookmarks (List.replicate 11 "") [] = (true, []) := rfl

/-- C4 (amended to non-empty outlines): for every document with more than 10
pages and every *non-empty* outline of fewer than 3 entries,
`verify_bookmarks` reports a too-few-bookmarks issue and returns
`is_valid = false`. -/
theorem C4_too_few_bookmarks (doc : List String) (b0 : TocEntry) (rest : List TocEntry)
    (hlen : (b0 :: rest).length < 3) (hpages : 10 < doc.length) :
    Issue.tooFewBookmarks (b0 :: rest).length doc.length ∈
      (verify_bookmarks doc (b0 :: rest)).2 ∧
    (verify_bookmarks doc (b0 :: rest)).1 = false := by
  have hmem : Issue.tooFewBookmarks (b0 :: rest).length doc.length ∈
      (verify_bookmarks doc (b0 :: rest)).2 := by
    show _ ∈ structureIssue (b0 :: rest) b0.page ++
      densityIssue doc.length (b0 :: rest) ++ contentIssues doc (b0 :: rest)
    have hd : densityIssue doc.length (b0 :: rest) =
        [Issue.tooFewBookmarks (b0 :: rest).length doc.length] := by
      unfold densityIssue
      rw [if_pos]
      simp only [Bool.and_eq_true, decide_eq_true_eq]
      exact ⟨hlen, hpages⟩
    refine List.mem_append_left _ (List.mem_append_right _ ?_)
    rw [hd]
    exact List.mem_singleton_self _
  exact ⟨hmem, verify_invalid_of_mem doc b0 rest _ hmem⟩

/-- Witness for C4: a 2-entry level-1 outline on page 1 of a 50-page
document is reported as having too few bookmarks and is invalid. -/
theorem C4_too_few_bookmarks_witness :
    Issue.tooFewBookmarks 2 50 ∈
      (verify_bookmarks (List.replicate 50 "") [⟨1, "Alpha", 1⟩, ⟨1, "Beta", 1⟩]).2 ∧
    (verify_bookmarks (List.replicate 50 "") [⟨1, "Alpha", 1⟩, ⟨1, "Beta", 1⟩]).1 = false :=
  C4_too_few_bookmarks (List.replicate 50 "") ⟨1, "Alpha", 1⟩ [⟨1, "Beta", 1⟩]
    (by decide) (by decide)

/-- C3 counterexample: 2 entries share the common level 2 and both point to
physical page 1 in a 50-page document — the claim demands a lacks-structure
issue, but check 1 requires level exactly 1 (`all(b.level == 1 ...)`,
bookmarks.py 37), so only the too-few-bookmarks issue is reported. -/
theorem C3_counterexample_level2 :
    (verify_bookmarks (List.replicate 50 "") [⟨2, "Alpha", 1⟩, ⟨2, "Beta", 1⟩]).2 =
      [Issue.tooFewBookmarks 2 50] ∧
    (verify_bookmarks (List.replicate 50 "")
        [⟨2, "Alpha", 1⟩, ⟨2, "Beta", 1⟩]).2.all (fun i => !(isLacksStructure i)) = true := by
  constructor <;> decide

/-- C3 (amended: the shared level must be level 1): every non-empty outline
of at most 3 entries, all at level 1 and all pointing to one physical page,
is flagged with a lacks-structure issue, hence invalid. -/
theorem C3_lacks_structure (doc : List String) (b0 : TocEntry) (rest : List TocEntry)
    (hlen : (b0 :: rest).length ≤ 3)
    (hlvl : ∀ e ∈ b0 :: rest, e.level = 1)
    (hpage : ∀ e ∈ b0 :: rest, e.page = b0.page) :
    Issue.lacksStructure (b0 :: rest).length b0.page ∈
      (verify_bookmarks doc (b0 :: rest)).2 ∧
    (verify_bookmarks doc (b0 :: rest)).1 = false := by
  have hmem : Issue.lacksStructure (b0 :: rest).length b0.page ∈
      (verify_bookmarks doc (b0 :: rest)).2 := by
    show _ ∈ structureIssue (b0 :: rest) b0.page ++
      densityIssue doc.length (b0 :: rest) ++ contentIssues doc (b0 :: rest)
    have hdedup : ((b0 :: rest).map (·.page)).dedup = [b0.page] := by
      simp only [List.map_cons]
      exact dedup_eq_singleton_of_all_eq b0.page _
        (fun x hx => by
          rcases List.mem_map.mp hx with ⟨e, he, rfl⟩
          exact hpage e (List.mem_cons_of_mem _ he))
    have hs : structureIssue (b0 :: rest) b0.page =
        [Issue.lacksStructure (b0 :: rest).length b0.page] := by
      unfold structureIssue
      rw [if_pos]
      simp only [hdedup, Bool.and_eq_true, beq_iff_eq, List.all_eq_true,
        decide_eq_true_eq]
      exact ⟨⟨rfl, fun b hb => by rw [hlvl b hb]⟩, hlen⟩
    refine List.mem_append_left _ (List.mem_append_left _ ?_)
    rw [hs]
    exact List.mem_singleton_self _
  exact ⟨hmem, verify_invalid_of_mem doc b0 rest _ hmem⟩

/-- Witness for C3 at the instance named in the claim: 2 entries, both
level 1, both pointing to physical page 1, 50-page document. -/
theorem C3_lacks_structure_witness :
    Issue.lacksStructure 2 1 ∈
      (verify_bookmarks (List.replicate 50 "") [⟨1, "Alpha", 1⟩, ⟨1, "Beta", 1⟩]).2 ∧
    (verify_bookmarks (List.replicate 50 "") [⟨1, "Alpha", 1⟩, ⟨1, "Beta", 1⟩]).1 = false :=
  C3_lacks_structure (List.replicate 50 "") ⟨1, "Alpha", 1⟩ [⟨1, "Beta", 1⟩]
    (by decide) (by decide) (by decide)

/-- C2 counterexample: the title `"Alpha Beta Gamma Delta"` yields 4
keywords; on a page whose text contains exactly one of them, fewer than half
the keywords appear and at least one is missing, yet the code does not count
a content mismatch (it requires `matches < 1`, bookmarks.py 73). -/
theorem C2_counterexample_one_match :
    contentMismatch "alpha xyz" "Alpha Beta Gamma Delta" = false ∧
    2 * keywordMatches "alpha xyz" (titleKeywords "Alpha Beta Gamma Delta") <
      (titleKeywords "Alpha Beta Gamma Delta").length ∧
    keywordMatches "alpha xyz" (titleKeywords "Alpha Beta Gamma Delta") <
      (titleKeywords "Alpha Beta Gamma Delta").length := by
  refine ⟨by decide, by decide, by decide⟩

/-- C2 (amended): an in-range sampled entry with a non-empty keyword set
counts as a content mismatch iff *no* keyword appears in its page's text and
it has at least two keywords (`matches < len(keywords) // 2 and
matches < 1`). -/
theorem C2_content_mismatch_iff (text title : String)
    (hkw : titleKeywords title ≠ []) :
    contentMismatch text title = true ↔
      keywordMatches text (titleKeywords title) = 0 ∧
        2 ≤ (titleKeywords title).length := by
  unfold contentMismatch
  rw [if_neg (by simpa [List.isEmpty_iff] using hkw)]
  simp only [Bool.and_eq_true, decide_eq_true_eq]
  omega

/-- Witness for C2's amended statement: title `"Alpha Beta"` on a page
containing neither keyword is a content mismatch. -/
theorem C2_content_mismatch_iff_witness :
    titleKeywords "Alpha Beta" ≠ [] ∧
    (contentMismatch "xyz" "Alpha Beta" = true ↔
      keywordMatches "xyz" (titleKeywords "Alpha Beta") = 0 ∧
        2 ≤ (titleKeywords "Alpha Beta").length) :=
  ⟨by decide, C2_content_mismatch_iff "xyz" "Alpha Beta" (by decide)⟩

/-! ## Bookmark writing (`add_bookmarks`, bookmarks.py 93-129)

`add_bookmarks` resolves a single page offset via `_find_page_offset`,
normalizes levels, and builds the outline rows `[level, title, pdf_page]`
where `pdf_page = entry.page + page_offset` clamped into `[1, len(doc)]`
(low bound first, then high bound). The offset search itself probes page
text with regexes and is not needed for claim C6, which holds for every
offset value; the resolved offset and the page count are parameters here. -/

/-- The page clamping in the loop of `add_bookmarks` (bookmarks.py 111-115):
`if pdf_page < 1: pdf_page = 1` then `if pdf_page > len(doc): pdf_page = len(doc)`. -/
def clampPage (pageCount p : Int) : Int :=
  let p1 := if p < 1 then 1 else p
  if pageCount < p1 then pageCount else p1

/-- The outline rows built by `add_bookmarks` (bookmarks.py 105-117): the
normalized entries with the single resolved `page_offset` applied to every
entry's page and clamped to the document. -/
def buildToc (pageCount pageOffset : Int) (entries : List TocEntry) :
    List (Int × String × Int) :=
  (normalize_levels entries).map
    fun e => (e.level, e.title, clampPage pageCount (e.page + pageOffset))

theorem clampPage_eq_clamp (pageCount p : Int) (h : 1 ≤ pageCount) :
    clampPage pageCount p = max 1 (min p pageCount) := by
  show (if pageCount < (if p < 1 then 1 else p) then pageCount
      else (if p < 1 then 1 else p)) = max 1 (min p pageCount)
  split <;> split <;> omega

/-! ### Claim C6 -/

/-- C6: for every entry list, resolved offset `k` and document with at least
one page, `add_bookmarks` writes the bookmarks at physical pages
`clamp(logical_page + k, 1, page_count)`, the same `k` applied uniformly to
all entries of the run. -/
theorem C6_offset_application (entries : List TocEntry) (k pageCount : Int)
    (h : 1 ≤ pageCount) :
    (buildToc pageCount k entries).map (fun row => row.2.2) =
      entries.map (fun e => max 1 (min (e.page + k) pageCount)) := by
  unfold buildToc
  have hpages : (normalize_levels entries).map (fun e => e.page) =
      entries.map (fun e => e.page) := by
    have := congrArg (List.map Prod.snd) (normalize_map_titlePage entries)
    simpa [List.map_map, Function.comp] using this
  calc ((normalize_levels entries).map
          fun e => (e.level, e.title, clampPage pageCount (e.page + k))).map
            (fun row => row.2.2)
      = ((normalize_levels entries).map (fun e => e.page)).map
          (fun p => clampPage pageCount (p + k)) := by
        simp [List.map_map, Function.comp]
    _ = (entries.map (fun e => e.page)).map (fun p => clampPage pageCount (p + k)) := by
        rw [hpages]
    _ = entries.map (fun e => max 1 (min (e.page + k) pageCount)) := by
        simp only [List.map_map, Function.comp]
        exact List.map_congr_left fun e _ => clampPage_eq_clamp pageCount (e.page + k) h

/-- Witness for C6: one entry with logical page 5, offset −10, 3-page
document: the bookmark is written at page 1. -/
theorem C6_offset_application_witness :
    (1 : Int) ≤ 3 ∧
    (buildToc 3 (-10) [⟨1, "Alpha", 5⟩]).map (fun row => row.2.2) =
      ([⟨1, "Alpha", 5⟩] : List TocEntry).map (fun e => max 1 (min (e.page + (-10)) 3)) :=
  ⟨by decide, C6_offset_application [⟨1, "Alpha", 5⟩] (-10) 3 (by decide)⟩

/-! ## Extractor deduplication (claim C7)

All three extractors deduplicate on the key `(title.lower(), page)` with a
`seen` set. The regex frontends that produce the candidate entries operate
on PDF text and are abstracted here as explicit candidate streams; the
accumulation loops below are the source's, with the `seen` set modelled as
the list of keys added so far. -/

/-- The dedup key used by all three extractors:
`(entry.title.lower(), entry.page)`. -/
def entryKey (e : TocEntry) : String × Int := (lowerStr e.title, e.page)

/-- No two entries of `l` share an identical `(lowercased title, page)`
pair. -/
def NoDupKeys (l : List TocEntry) : Prop :=
  l.Pairwise (fun a b => entryKey a ≠ entryKey b)

/-- The per-match accumulation loop of `_extract_dotted_leader_format`
(toc_extraction.py 134-164): a candidate is dropped when its key was already
seen or its page is `< 1` or `> total_pages + 50`; otherwise its key is
added to `seen` and the entry kept. The `seen` set persists across all five
patterns, so the whole match stream is a single input list here. -/
def dottedLeaderAccum (totalPages : Int) :
    List TocEntry → List (String × Int) → List TocEntry
  | [], _ => []
  | e :: rest, seen =>
    if entryKey e ∈ seen ∨ e.page < 1 ∨ totalPages + 50 < e.page then
      dottedLeaderAccum totalPages rest seen
    else e :: dottedLeaderAccum totalPages rest (entryKey e :: seen)

/-- The `seen`-set dedup loop shared verbatim by
`_extract_line_by_line_format` (toc_extraction.py 220-229, a dedup pass over
the parsed entries) and `extract_section_headers` (section_headers.py
99-103, an inline gate on each accepted entry). -/
def dedupBySeen : List TocEntry → List (String × Int) → List TocEntry
  | [], _ => []
  | e :: rest, seen =>
    if entryKey e ∈ seen then dedupBySeen rest seen
    else e :: dedupBySeen rest (entryKey e :: seen)

/-- The final sort of `extract_section_headers` (section_headers.py 108):
`toc_entries.sort(key=lambda e: (e.page, e.level))`, as a lexicographic `≤`. -/
def pageLevelLe (a b : TocEntry) : Bool :=
  decide (a.page < b.page) || ((a.page == b.page) && decide (a.level ≤ b.level))

theorem insertStable_perm (le : α → α → Bool) (a : α) (l : List α) :
    List.Perm (insertStable le a l) (a :: l) := by
  induction l with
  | nil => exact List.Perm.refl _
  | cons b t ih =>
    simp only [insertStable]
    split
    · exact List.Perm.refl _
    · exact (ih.cons b).trans (List.Perm.swap a b t)

theorem stableSort_perm (le : α → α → Bool) (l : List α) :
    List.Perm (stableSort le l) l := by
  induction l with
  | nil => exact List.Perm.refl _
  | cons a t ih => exact (insertStable_perm le a _).trans (ih.cons a)

theorem dedupBySeen_not_mem_seen (l : List TocEntry) (seen : List (String × Int)) :
    ∀ e ∈ dedupBySeen l seen, entryKey e ∉ seen := by
  induction l generalizing seen with
  | nil => intro e he; cases he
  | cons b t ih =>
    intro e he
    simp only [dedupBySeen] at he
    split at he
    · exact ih seen e he
    · rcases List.mem_cons.mp he with rfl | he
      · assumption
      · intro hmem
        exact ih (entryKey b :: seen) e he (List.mem_cons_of_mem _ hmem)

theorem dedupBySeen_nodup (l : List TocEntry) (seen : List (String × Int)) :
    NoDupKeys (dedupBySeen l seen) := by
  induction l generalizing seen with
  | nil => exact List.Pairwise.nil
  | cons b t ih =>
    simp only [dedupBySeen]
    split
    · exact ih seen
    · refine List.Pairwise.cons ?_ (ih _)
      intro y hy hkey
      exact dedupBySeen_not_mem_seen t (entryKey b :: seen) y hy
        (by rw [← hkey]; exact List.mem_cons_self _ _)

theorem dottedLeaderAccum_not_mem_seen (totalPages : Int) (l : List TocEntry)
    (seen : List (String × Int)) :
    ∀ e ∈ dottedLeaderAccum totalPages l seen, entryKey e ∉ seen := by
  induction l generalizing seen with
  | nil => intro e he; cases he
  | cons b t ih =>
    intro e he
    simp only [dottedLeaderAccum] at he
    split at he
    · exact ih seen e he
    · rcases List.mem_cons.mp he with rfl | he
      · rename_i hcond
        exact fun hmem => hcond (Or.inl hmem)
      · intro hmem
        exact ih (entryKey b :: seen) e he (List.mem_cons_of_mem _ hmem)

theorem dottedLeaderAccum_nodup (totalPages : Int) (l : List TocEntry)
    (seen : List (String × Int)) :
    NoDupKeys (dottedLeaderAccum totalPages l seen) := by
  induction l generalizing seen with
  | nil => exact List.Pairwise.nil
  | cons b t ih =>
    simp only [dottedLeaderAccum]
    split
    · exact ih seen
    · refine List.Pairwise.cons ?_ (ih _)
      intro y hy hkey
      exact dottedLeaderAccum_not_mem_seen totalPages t (entryKey b :: seen) y hy
        (by rw [← hkey]; exact List.mem_cons_self _ _)

/-! ### Claim C7 -/

/-- C7: the entry list returned by each extractor — the ToC-page extractor
under the dotted-leader grammar and the line-by-line grammar, and the
section-header scanner (including its final `(page, level)` sort) —
contains no two entries sharing an identical `(lowercased title, page)`
pair, for every candidate stream the regex frontends can produce. -/
theorem C7_extractor_dedup (totalPages : Int)
    (dottedCands lineCands accepted : List TocEntry) :
    NoDupKeys (dottedLeaderAccum totalPages dottedCands []) ∧
    NoDupKeys (dedupBySeen lineCands []) ∧
    NoDupKeys (stableSort pageLevelLe (dedupBySeen accepted [])) := by
  refine ⟨dottedLeaderAccum_nodup totalPages dottedCands [],
    dedupBySeen_nodup lineCands [], ?_⟩
  exact List.Pairwise.perm (dedupBySeen_nodup accepted [])
    (stableSort_perm pageLevelLe _).symm (fun h => (h ∘ Eq.symm))

/-! ## Section-header scoring (claim C8)

`_score_section_header` (section_headers.py 120-216) accumulates decimal
weight adjustments onto a base score of 0.35 for any structurally matched
line, clamps the result into [0, 1], and the scan loop
(section_headers.py 96-99) accepts a matched candidate iff
`score >= 0.4`. Python float arithmetic is modelled with exact rationals,
preserving the decimal constants and, in particular, the direction of the
threshold comparison. The boolean/numeric features feeding the rules
(regex and word-list tests on the line) are inputs here. -/

/-- The feature values `_score_section_header` computes from a structurally
matched line before accumulating the score: the academic-vocabulary overlap
count, the casing of the stripped title, trailing punctuation, word count,
the negative regex patterns, and the leading section number if any. -/
structure ScoreFeatures where
  academicMatches : Nat
  allCaps : Bool
  firstUpper : Bool
  titleCaseWords : Bool
  endsPunct : Bool
  wordCount : Nat
  refPattern : Bool
  bodyStarter : Bool
  authorPattern : Bool
  copyrightPattern : Bool
  secNum : Option Int
deriving Repr

/-- The score accumulation of `_score_section_header`
(section_headers.py 138-216), rule for rule in source order, ending with
`max(0.0, min(1.0, score))`. -/
def scoreSection (f : ScoreFeatures) : ℚ :=
  let s0 : ℚ := 35 / 100
  let s1 := if 0 < f.academicMatches then
      s0 + min (35 / 100) ((f.academicMatches : ℚ) * (15 / 100)) else s0
  let s2 := if f.allCaps then s1 + 2 / 10
    else if f.firstUpper then (if f.titleCaseWords then s1 + 1 / 10 else s1) else s1
  let s3 := if f.endsPunct then s2 - 2 / 10 else s2
  let s4 := if f.wordCount = 1 ∧ f.academicMatches = 0 then s3 - 15 / 100 else s3
  let s5 := if 10 < f.wordCount then s4 - 2 / 10 else s4
  let s6 := if f.refPattern then s5 - 5 / 10 else s5
  let s7 := if f.bodyStarter then s6 - 3 / 10 else s6
  let s8 := if f.authorPattern then s7 - 5 / 10 else s7
  let s9 := if f.copyrightPattern then s8 - 5 / 10 else s8
  let s10 :=
    match f.secNum with
    | none => s9
    | some n =>
      let a := if 15 < n then s9 - 3 / 10 else s9
      if n = 0 then a - 3 / 10 else a
  max 0 (min 1 s10)

/-- The acceptance gate of the scan loop (section_headers.py 96 and 99):
a structurally matched candidate enters the output pipeline iff
`score >= 0.4`. -/
def acceptHeader (f : ScoreFeatures) : Bool :=
  decide ((2 : ℚ) / 5 ≤ scoreSection f)

/-! ### Claim C8 -/

/-- C8: the acceptance threshold of the section-header scanner is an
inclusive lower bound: a matched candidate scoring exactly 0.4 is accepted,
and any matched candidate scoring strictly below 0.4 is rejected. -/
theorem C8_threshold_inclusive (f : ScoreFeatures) :
    (scoreSection f = 2 / 5 → acceptHeader f = true) ∧
    (scoreSection f < 2 / 5 → acceptHeader f = false) := by
  constructor
  · intro h
    exact decide_eq_true (le_of_eq h.symm)
  · intro h
    exact decide_eq_false (not_le.mpr h)

/-- Witness for C8: an ALL-CAPS single-word non-academic title
(base 0.35 + 0.2 − 0.15) scores exactly 0.4 and is accepted. -/
theorem C8_threshold_inclusive_witness :
    scoreSection ⟨0, true, false, false, false, 1, false, false, false, false, some 3⟩ =
      2 / 5 ∧
    acceptHeader ⟨0, true, false, false, false, 1, false, false, false, false, some 3⟩ =
      true := by
  have hs : scoreSection
      ⟨0, true, false, false, false, 1, false, false, false, false, some 3⟩ = 2 / 5 := by
    simp only [scoreSection]
    norm_num
  exact ⟨hs, (C8_threshold_inclusive
    ⟨0, true, false, false, false, 1, false, false, false, false, some 3⟩).1 hs⟩

/-! ## OCR invocation and degraded continuation (claim C9) -/

/-- Function `run_ocr` from `src/pdftoc/ocr.py` (lines 26-59): run the ocrmypdf
subprocess synchronously and raise `RuntimeError` unless the exit code is 0
or 6 ("file already has text", treated as success). The subprocess is
abstracted by its exit code; a raise is an `Except.error`. -/
def run_ocr (returncode : Int) : Except String Unit :=
  if returncode ≠ 0 ∧ returncode ≠ 6 then .error "OCR failed (see error above)"
  else .ok ()

/-- Step 2 of `process_pdf` (core.py 583-597): when OCR is needed, a
`RuntimeError` from `run_ocr` is caught, a warning is printed, and the
original source stays the working document for the rest of the pipeline;
on success the OCR output becomes the working document. -/
def ocrStep (needsOcr : Bool) (sourcePdf tmpPdf : String) (returncode : Int) :
    String :=
  if needsOcr then
    match run_ocr returncode with
    | .ok _ => tmpPdf
    | .error _ => sourcePdf
  else sourcePdf

/-! ### Claim C9 -/

/-- C9: `run_ocr` raises exactly when the OCR subprocess exits with a code
other than 0 or 6, and whenever OCR is attempted and `run_ocr` raises,
`process_pdf` continues with the original source document as its working
input instead of aborting. -/
theorem C9_ocr_error_handling (returncode : Int) :
    ((∃ msg, run_ocr returncode = .error msg) ↔ returncode ≠ 0 ∧ returncode ≠ 6) ∧
    ∀ sourcePdf tmpPdf : String, (∃ msg, run_ocr returncode = .error msg) →
      ocrStep true sourcePdf tmpPdf returncode = sourcePdf := by
  constructor
  · constructor
    · rintro ⟨msg, hmsg⟩
      by_contra hc
      unfold run_ocr at hmsg
      rw [if_neg hc] at hmsg
      cases hmsg
    · intro h
      exact ⟨_, by unfold run_ocr; rw [if_pos h]⟩
  · rintro sourcePdf tmpPdf ⟨msg, hmsg⟩
    unfold ocrStep
    simp [hmsg]

/-- Witness for C9: exit code 2 raises and the pipeline keeps the original
source as the working document. -/
theorem C9_ocr_error_handling_witness :
    run_ocr 2 = Except.error "OCR failed (see error above)" ∧
    ocrStep true "paper.pdf" "ocr_tmp.pdf" 2 = "paper.pdf" :=
  ⟨rfl,
   (C9_ocr_error_handling 2).2 "paper.pdf" "ocr_tmp.pdf"
     ⟨"OCR failed (see error above)", rfl⟩⟩

/-! ## Orchestrator extraction dispatch (claim C1) -/

/-- Enumeration `ExtractionMode` from `src/pdftoc/models.py`. -/
inductive ExtractionMode where
  | auto
  | toc_page
  | section_headers
deriving DecidableEq, Repr

/-- The extraction step of `process_pdf` as it stands in
`src/pdftoc/core.py` (lines 560-615): `process_pdf` accepts no `mode`
argument at all (its signature has only source, output, skip_ocr,
force_ocr, language, verbose) and unconditionally runs
`extract_toc_from_text` — the ToC-page extractor — never
`extract_section_headers` and with no fallback. The `mode` parameter below
stands for the `ExtractionMode` value that `cli.main` (cli.py 131-149) and
the test-suite attempt to pass; it is ignored here precisely because the
implementation has no dispatch. Given the entry lists the two extractors
would produce on the working document, the pipeline's extracted entries are
always the ToC-page extractor's. -/
def process_pdf_extract (_mode : ExtractionMode)
    (tocPageResult _sectionHeaderResult : List TocEntry) : List TocEntry :=
  tocPageResult

/-! ### Claim C1 -/

/-- C1 names a code bug: in `SECTION_HEADERS` mode with an empty ToC-page
result and a non-empty section-header result, the extraction step of
`process_pdf` still returns the empty ToC-page result — the scanner never
runs — and in general the step is independent of both the mode and the
scanner's output, contradicting the mode dispatch that the claim (and
cli.py, models.py and the test-suite) describe. -/
theorem C1_mode_dispatch_missing :
    process_pdf_extract .section_headers [] [⟨2, "1. Introduction", 1⟩] = [] ∧
    ∀ (mode : ExtractionMode) (tocRes shRes : List TocEntry),
      process_pdf_extract mode tocRes shRes = tocRes :=
  ⟨rfl, fun _ _ _ => rfl⟩

end Pdftoc
